import Mathlib

/-!
Verification development for the Blockchain-Transaction-Fee-Analyzer
repository.  The repository contains three per-network analyzers:
`src/networks/ethereum.py`, `src/networks/arbitrum.py` (account model) and
`src/networks/litecoin.py` (UTXO model).  The definitions below are shallow
embeddings of the pure decision logic of those files: HTTP fetches are
modelled as data passed in (a block number to transaction-list map, a
receipt lookup), Python dicts with `.get` defaults become structures
(an `Option` field where the source uses two different defaults for the
same key, or distinguishes a missing key), Python ints become `Nat`,
and Python floats (all produced by exact divisions of integer
quantities here) become `Rat`.
-/

/-! ## UTXO model (litecoin.py) -/

/-- One entry of the `vin` array of an esplora transaction; only the
`is_coinbase` flag is inspected by the source (litecoin.py lines 176, 53). -/
structure LtcVin where
  is_coinbase : Bool
deriving DecidableEq

/-- The `status` object of an esplora transaction (litecoin.py line 131). -/
structure LtcStatus where
  confirmed : Bool
  block_height : Nat
deriving DecidableEq

/-- A raw litecoin transaction as consumed by litecoin.py.  `fee` and
`weight` model `tx.get(key, 0)` with the default already applied; `size`
stays an `Option` because the source uses default 1 at fee computation
(lines 46, 56) but default 0 when recording sizes (lines 136, 187);
`vout_count` models `len(tx.get(&#39;vout&#39;, []))`. -/
structure LtcTx where
  fee : Rat
  weight : Rat
  size : Option Rat
  vin : List LtcVin
  vout_count : Nat
  status : LtcStatus
deriving DecidableEq

/-- MAX_FEE from litecoin.py line 37. -/
def MAX_FEE : Rat := 8

/-- OUR_TRANSACTIONS_LIMIT from litecoin.py line 38. -/
def OUR_TRANSACTIONS_LIMIT : Nat := 20

/-- NETWORK_BLOCKS_LIMIT from litecoin.py line 39. -/
def NETWORK_BLOCKS_LIMIT : Nat := 20

namespace Ltc

/-- litecoin.py lines 42-48: fee per byte and virtual size of a
transaction.  Returns the pair `(fee_per_byte, vsize)`. -/
def calculate_fee_per_byte (tx : LtcTx) : Rat × Rat :=
  let fee_litoshi := tx.fee
  let vsize := if tx.weight > 0 then tx.weight / 4 else tx.size.getD 1
  let fee_per_byte := if vsize > 0 then fee_litoshi / vsize else 0
  (fee_per_byte, vsize)

/-- litecoin.py lines 51-60: the CPFP heuristic.  More than 5 inputs and a
fee per byte (recomputed with the same formula) strictly below 2. -/
def is_cpfp_transaction (tx : LtcTx) : Bool :=
  let vin_count := tx.vin.length
  if vin_count > 5 then
    let fee_litoshi := tx.fee
    let vsize := if tx.weight > 0 then tx.weight / 4 else tx.size.getD 1
    let fee_per_byte := if vsize > 0 then fee_litoshi / vsize else 0
    decide (fee_per_byte < 2)
  else false

/-- The record stored for a retained network transaction
(litecoin.py lines 185-192). -/
structure NetTx where
  fee_per_byte : Rat
  size : Rat
  weight : Rat
  inputs : Nat
  outputs : Nat
  vsize : Rat
deriving DecidableEq

/-- litecoin.py lines 175-192, the per-transaction body of the network
sampling loop: drop coinbase-input transactions, drop CPFP candidates,
keep the transaction only when its fee per byte lies in `(0, MAX_FEE]`. -/
def classify_network_tx (tx : LtcTx) : Option NetTx :=
  if tx.vin.any (fun v => v.is_coinbase) then none
  else if is_cpfp_transaction tx then none
  else
    let r := calculate_fee_per_byte tx
    if 0 < r.1 ∧ r.1 ≤ MAX_FEE then
      some { fee_per_byte := r.1, size := tx.size.getD 0, weight := tx.weight,
             inputs := tx.vin.length, outputs := tx.vout_count, vsize := r.2 }
    else none

/-- litecoin.py lines 159-201 with the per-block fetch already performed:
each inner list is the transaction list of one scanned block; an empty
fetch result is skipped (line 172), every other transaction goes through
`classify_network_tx`. -/
def analyze_network_transactions (blocks : List (List LtcTx)) : List NetTx :=
  blocks.foldl
    (fun acc txs =>
      if txs.isEmpty then acc else acc ++ txs.filterMap classify_network_tx)
    []

/-- litecoin.py lines 75-91, `get_recent_blocks`: when the blockchain
status call succeeded (`info = some current_height`) the scanned heights
are `range(max(1, current_height - limit + 1), current_height + 1)`;
otherwise the heights of the first `limit` entries of the `/blocks`
fallback payload. -/
def get_recent_blocks (info : Option Nat) (fallback_heights : List Nat)
    (limit : Nat) : List Nat :=
  match info with
  | none => fallback_heights.take limit
  | some current_height =>
      let start_height := max 1 (current_height + 1 - limit)
      List.range' start_height (current_height + 1 - start_height)

/-- litecoin.py line 163: the block heights the network sampler scans,
`get_recent_blocks(NETWORK_BLOCKS_LIMIT)`. -/
def scanned_blocks (info : Option Nat) (fallback_heights : List Nat) : List Nat :=
  get_recent_blocks info fallback_heights NETWORK_BLOCKS_LIMIT

/-- Insertion of one rational into a sorted list, the auxiliary step of
the sort underlying the median. -/
def insertSorted (x : Rat) : List Rat → List Rat
  | [] => [x]
  | y :: ys => if x ≤ y then x :: y :: ys else y :: insertSorted x ys

/-- Sorting a list of rationals, as Python sorting does inside
`statistics.median`. -/
def sortRat (l : List Rat) : List Rat := l.foldr insertSorted []

/-- Python `statistics.median`: middle element of the sorted list for odd
length, mean of the two middle elements for even length.  The source only
applies it to non-empty lists; the empty case is given the junk value 0. -/
def median (l : List Rat) : Rat :=
  let s := sortRat l
  if s.length % 2 = 1 then s.getD (s.length / 2) 0
  else if s.length = 0 then 0
  else (s.getD (s.length / 2 - 1) 0 + s.getD (s.length / 2) 0) / 2

/-- The statistics record returned by `get_our_transactions_stats`
(litecoin.py lines 145-152). -/
structure OurStats where
  avg_fee_per_byte : Rat
  avg_size : Rat
  avg_weight : Rat
  avg_inputs : Rat
  avg_outputs : Rat
  total_txs : Nat
deriving DecidableEq

/-- litecoin.py lines 110-156 with the address fetch already performed:
truncate the fetched history to `OUR_TRANSACTIONS_LIMIT`, skip every
transaction whose status is not confirmed (line 131), record the metric
lists over the remaining ones, and return `none` when nothing is left
(lines 141-143). -/
def get_our_transactions_stats (fetched : List LtcTx) : Option OurStats :=
  let our_txs := fetched.take OUR_TRANSACTIONS_LIMIT
  let confirmed_txs := our_txs.filter (fun tx => tx.status.confirmed)
  let fees := confirmed_txs.map (fun tx => (calculate_fee_per_byte tx).1)
  let sizes := confirmed_txs.map (fun tx => tx.size.getD 0)
  let weights := confirmed_txs.map (fun tx => tx.weight)
  let inputs := confirmed_txs.map (fun tx => (tx.vin.length : Rat))
  let outputs := confirmed_txs.map (fun tx => (tx.vout_count : Rat))
  if fees.isEmpty then none
  else
    some { avg_fee_per_byte := median fees, avg_size := median sizes,
           avg_weight := median weights, avg_inputs := median inputs,
           avg_outputs := median outputs, total_txs := fees.length }

/-- litecoin.py lines 212-215: `main` stops (before any network sampling
and before any report) exactly when `get_our_transactions_stats` returned
an absent result. -/
def run_proceeds (fetched : List LtcTx) : Bool :=
  (get_our_transactions_stats fetched).isSome

end Ltc

/-- The percentage-delta computation used for every mine/network statistic
pair: ethereum.py lines 268 and 272, arbitrum.py lines 383-395,
litecoin.py lines 245, 256, 268, 279, 290 all inline this same expression:
`(mine - network) / network * 100 if network > 0 else 0`. -/
def percent_diff (mine network : Rat) : Rat :=
  if network > 0 then (mine - network) / network * 100 else 0

/-! ## Account model (ethereum.py and arbitrum.py) -/

/-- A raw account-model transaction as seen by the block scan and the
classifier.  `fromAddr` and `toAddr` model the dict keys `from` and `to`
(Lean keywords); `toAddr` and `input` stay `Option` because the source distinguishes a missing
key there (`tx.get("to")` truthiness, and arbitrum.py line 182 compares
`tx.get("input")` with no default); `value`, `gasPrice`, `gas` hold the
integer values the source parses out of the corresponding string fields
(hexadecimal in block payloads; ethereum.py uses `int(x, 16)`,
arbitrum.py `int(x, 0)` or a runtime type test). -/
structure EvmTx where
  hash : String
  fromAddr : String
  toAddr : Option String
  value : Nat
  input : Option String
  gasPrice : Nat
  gas : Nat

/-- Python truthiness of `tx.get(key)` for a string-valued key: the key is
present and the string is non-empty. -/
def truthyStr (o : Option String) : Bool :=
  match o with
  | none => false
  | some s => !(s == "")

/-- The zero contract address used as the native-asset descriptor
(config.example.py lines 21, 26). -/
def ZERO_ADDRESS : String := "0x0000000000000000000000000000000000000000"

/-- A transaction receipt; only `gasUsed` is read
(ethereum.py line 185, arbitrum.py line 272). -/
structure EvmReceipt where
  gasUsed : Nat

/-- The normalized record built for both user and network transactions
(ethereum.py lines 144-152 and 190-198, arbitrum.py lines 214-222 and
277-285); also the shape consumed by `analyze_data`. -/
structure TransferData where
  token : String
  hash : String
  block : Nat
  gas_used : Nat
  gas_price : Nat
  gas_limit : Nat
  fee : Nat

/-- The data environment of one account-model network-sampling pass:
the configured token table in its insertion order (`NETWORK_TOKENS`),
the cap `MAX_NETWORK_EXAMPLES`, the configured user address
(`MY_ADDRESS`), and the two fetches `get_block_transactions` and
`get_transaction_receipt` modelled as data. -/
structure NetEnv where
  networkTokens : List (String × String)
  maxNetworkExamples : Nat
  myAddress : String
  blockTxs : Nat → List EvmTx
  receipt : String → Option EvmReceipt

namespace Eth

/-- ethereum.py lines 121-128: native transfers (zero token address)
require a truthy recipient and a positive parsed value; token transfers
require the recipient to equal the contract address case-insensitively
and the call data to start with the `transfer` selector.  Note the native
branch places no condition on the call data. -/
def is_token_transfer (tx : EvmTx) (token_address : String) : Bool :=
  if token_address == ZERO_ADDRESS then
    truthyStr tx.toAddr && decide (0 < tx.value)
  else
    truthyStr tx.toAddr &&
      ((tx.toAddr.getD "").toLower == token_address.toLower) &&
      ((tx.input.getD "").startsWith "0xa9059cbb")

end Eth

namespace Arb

/-- arbitrum.py lines 165-188: same as the ethereum classifier except that
the native branch additionally requires the call data to be exactly
`"0x"` or `""` (arbitrum.py line 182). -/
def is_token_transfer (tx : EvmTx) (token_address : String) : Bool :=
  if token_address == ZERO_ADDRESS then
    truthyStr tx.toAddr && decide (0 < tx.value) &&
      (tx.input == some "0x" || tx.input == some "")
  else
    truthyStr tx.toAddr &&
      ((tx.toAddr.getD "").toLower == token_address.toLower) &&
      ((tx.input.getD "").startsWith "0xa9059cbb")

end Arb

/-- The running state of one block of the sampling loop: the per-token
counter dictionary (a total map, zero outside the tokens of interest,
mirroring `{token: 0 for token in tokens_to_find}`) together with the
`network_data` accumulator. -/
def SampleState : Type := (String → Nat) × List TransferData

namespace Eth

/-- ethereum.py lines 175-200, the body of the token loop for one raw
transaction and one `(token_name, token_address)` entry: skip tokens not
searched for, skip tokens whose counter reached `MAX_NETWORK_EXAMPLES`,
and for a classified transfer whose receipt is available append the
normalized record and bump the counter of that token. -/
def token_step (env : NetEnv) (tokens_to_find : List String) (block : Nat)
    (tx : EvmTx) (st : SampleState) (entry : String × String) : SampleState :=
  if entry.1 ∈ tokens_to_find then
    if st.1 entry.1 < env.maxNetworkExamples then
      if is_token_transfer tx entry.2 then
        match env.receipt tx.hash with
        | some receipt =>
            let gas_used := receipt.gasUsed
            let gas_price := tx.gasPrice
            let gas_limit := tx.gas
            (fun t => if t == entry.1 then st.1 t + 1 else st.1 t,
             st.2 ++ [{ token := entry.1, hash := tx.hash, block := block,
                        gas_used := gas_used, gas_price := gas_price,
                        gas_limit := gas_limit,
                        fee := gas_used * gas_price }])
        | none => st
      else st
    else st
  else st

/-- ethereum.py lines 174-200: one raw transaction is tested against every
configured token in insertion order.  No sender check is performed here. -/
def tx_step (env : NetEnv) (tokens_to_find : List String) (block : Nat)
    (st : SampleState) (tx : EvmTx) : SampleState :=
  env.networkTokens.foldl (token_step env tokens_to_find block tx) st

/-- ethereum.py lines 167-203: process one block, with the per-token
counters initialized to zero at the start of the block (line 172). -/
def process_block (env : NetEnv) (tokens_to_find : List String)
    (acc : List TransferData) (block : Nat) : List TransferData :=
  let txs := env.blockTxs block
  (txs.foldl (tx_step env tokens_to_find block) ((fun _ => 0), acc)).2

/-- ethereum.py lines 162-207, `collect_network_transfers`. -/
def collect_network_transfers (env : NetEnv) (blocks : List Nat)
    (tokens_to_find : List String) : List TransferData :=
  blocks.foldl (process_block env tokens_to_find) []

end Eth

namespace Arb

/-- arbitrum.py lines 261-287: identical to the ethereum token loop body
except that it uses the arbitrum classifier. -/
def token_step (env : NetEnv) (tokens_to_find : List String) (block : Nat)
    (tx : EvmTx) (st : SampleState) (entry : String × String) : SampleState :=
  if entry.1 ∈ tokens_to_find then
    if st.1 entry.1 < env.maxNetworkExamples then
      if is_token_transfer tx entry.2 then
        match env.receipt tx.hash with
        | some receipt =>
            let gas_used := receipt.gasUsed
            let gas_price := tx.gasPrice
            let gas_limit := tx.gas
            (fun t => if t == entry.1 then st.1 t + 1 else st.1 t,
             st.2 ++ [{ token := entry.1, hash := tx.hash, block := block,
                        gas_used := gas_used, gas_price := gas_price,
                        gas_limit := gas_limit,
                        fee := gas_used * gas_price }])
        | none => st
      else st
    else st
  else st

/-- arbitrum.py lines 256-287: a raw transaction whose sender equals the
configured address case-insensitively is skipped outright (lines 258-259);
every other transaction is tested against every configured token. -/
def tx_step (env : NetEnv) (tokens_to_find : List String) (block : Nat)
    (st : SampleState) (tx : EvmTx) : SampleState :=
  if tx.fromAddr.toLower == env.myAddress.toLower then st
  else env.networkTokens.foldl (token_step env tokens_to_find block tx) st

/-- arbitrum.py lines 249-292: process one block, with the per-token
counters initialized to zero at the start of the block (line 254). -/
def process_block (env : NetEnv) (tokens_to_find : List String)
    (acc : List TransferData) (block : Nat) : List TransferData :=
  let txs := env.blockTxs block
  (txs.foldl (tx_step env tokens_to_find block) ((fun _ => 0), acc)).2

/-- arbitrum.py lines 232-297, `collect_network_transfers`. -/
def collect_network_transfers (env : NetEnv) (blocks : List Nat)
    (tokens_to_find : List String) : List TransferData :=
  blocks.foldl (process_block env tokens_to_find) []

end Arb

/-- An entry of the account-list endpoint used by
`collect_my_transactions`; the integer fields hold the parsed values of
the corresponding decimal string fields. -/
structure OwnTx where
  hash : String
  blockNumber : Nat
  gasUsed : Nat
  gasPrice : Nat
  gas : Nat

/-- Insertion into the `blocks_to_analyze` set (Python `set.add`),
modelled as a duplicate-free list so that membership and distinctness can
be stated. -/
def insertBlock (l : List Nat) (b : Nat) : List Nat :=
  if b ∈ l then l else l ++ [b]

/-- ethereum.py lines 131-159 and (verbatim identical logic) arbitrum.py
lines 191-229, `collect_my_transactions`, with the per-token account
fetches already performed: `per_token` pairs each configured token name
with the fetched transaction list.  Transactions whose block number is 0
are dropped; every other one contributes a normalized record and its
block number joins the `blocks_to_analyze` set. -/
def collect_my_transactions (per_token : List (String × List OwnTx)) :
    List TransferData × List Nat :=
  per_token.foldl
    (fun acc p =>
      p.2.foldl
        (fun acc tx =>
          if 0 < tx.blockNumber then
            (acc.1 ++ [{ token := p.1, hash := tx.hash,
                         block := tx.blockNumber, gas_used := tx.gasUsed,
                         gas_price := tx.gasPrice, gas_limit := tx.gas,
                         fee := tx.gasUsed * tx.gasPrice }],
             insertBlock acc.2 tx.blockNumber)
          else acc)
        acc)
    ([], [])

/-- ethereum.py lines 305-314 (and arbitrum.py lines 431-442): `main`
passes exactly the second component of `collect_my_transactions` to the
network sampler as its block list. -/
def account_scanned_blocks (per_token : List (String × List OwnTx)) :
    List Nat :=
  (collect_my_transactions per_token).2

/-- The running totals accumulated per token by `analyze_data`
(ethereum.py lines 212-226). -/
@[ext]
structure AccStats where
  count : Nat
  total_gas_used : Nat
  total_gas_price : Nat
  total_gas_limit : Nat
  total_fee : Nat

/-- The zero entry a `defaultdict` creates on first access
(ethereum.py lines 212-218). -/
def statsInit : AccStats :=
  { count := 0, total_gas_used := 0, total_gas_price := 0,
    total_gas_limit := 0, total_fee := 0 }

/-- One iteration of the accumulation loop of `analyze_data`
(ethereum.py lines 220-226). -/
def statsAdd (s : AccStats) (tx : TransferData) : AccStats :=
  { count := s.count + 1,
    total_gas_used := s.total_gas_used + tx.gas_used,
    total_gas_price := s.total_gas_price + tx.gas_price,
    total_gas_limit := s.total_gas_limit + tx.gas_limit,
    total_fee := s.total_fee + tx.fee }

/-- The accumulation loop of one side of `analyze_data` (ethereum.py
lines 220-226 for the user side, 236-242 for the network side; arbitrum.py
lines 322-344 are identical).  The `defaultdict` is modelled as a total
map that is `statsInit` outside the accessed keys; a key was accessed
(hence is present in the Python dict) exactly when its count is
positive. -/
def accumulate_stats (txs : List TransferData) : String → AccStats :=
  txs.foldl
    (fun m tx => fun t => if t == tx.token then statsAdd (m t) tx else m t)
    (fun _ => statsInit)

/-- The per-token record after the averaging pass of `analyze_data`
(ethereum.py lines 244-250). -/
structure AccAvgStats where
  count : Nat
  avg_gas_used : Rat
  avg_gas_price : Rat
  avg_gas_limit : Rat
  avg_fee : Rat

/-- ethereum.py lines 210-252, `analyze_data`, one side (the user and the
network side run the same code on their own list): the entry of the
result mapping at a token, `none` when the token was never accessed
(equivalently its count is 0, ethereum.py line 246 guard), otherwise the
totals divided by the count. -/
def analyze_data_side (txs : List TransferData) (t : String) :
    Option AccAvgStats :=
  let s := accumulate_stats txs t
  if 0 < s.count then
    some { count := s.count,
           avg_gas_used := (s.total_gas_used : Rat) / (s.count : Rat),
           avg_gas_price := (s.total_gas_price : Rat) / (s.count : Rat),
           avg_gas_limit := (s.total_gas_limit : Rat) / (s.count : Rat),
           avg_fee := (s.total_fee : Rat) / (s.count : Rat) }
  else none

/-- Number of records of a given token in a sampler result. -/
def countToken (t : String) (l : List TransferData) : Nat :=
  (l.filter (fun r => r.token == t)).length

/-- Sum of a numeric field over the records of a given token. -/
def sumByToken (txs : List TransferData) (t : String)
    (f : TransferData → Nat) : Nat :=
  ((txs.filter (fun r => r.token == t)).map f).sum

/-! ## Concrete inputs used for counterexamples and witnesses -/

/-- Six inputs, none of them coinbase. -/
def vin6 : List LtcVin :=
  [⟨false⟩, ⟨false⟩, ⟨false⟩, ⟨false⟩, ⟨false⟩, ⟨false⟩]

/-- A confirmed transaction with 6 inputs and fee per byte 150/100 = 1.5
(fee 150, weight 400, so vsize 100). -/
def c5tx : LtcTx :=
  { fee := 150, weight := 400, size := some 110, vin := vin6,
    vout_count := 2, status := { confirmed := true, block_height := 5 } }

/-- A transaction with 6 inputs and fee per byte 1.5. -/
def c6lo : LtcTx :=
  { fee := 150, weight := 400, size := some 110, vin := vin6,
    vout_count := 2, status := { confirmed := true, block_height := 5 } }

/-- The same transaction with fee 300, so fee per byte 3. -/
def c6hi : LtcTx :=
  { fee := 300, weight := 400, size := some 110, vin := vin6,
    vout_count := 2, status := { confirmed := true, block_height := 5 } }

/-- A transaction with positive weight 8, so virtual size 2. -/
def c9pos : LtcTx :=
  { fee := 10, weight := 8, size := some 3, vin := [⟨false⟩],
    vout_count := 1, status := { confirmed := true, block_height := 1 } }

/-- A transaction with weight 0 and byte size 5. -/
def c9noW : LtcTx :=
  { fee := 10, weight := 0, size := some 5, vin := [⟨false⟩],
    vout_count := 1, status := { confirmed := true, block_height := 1 } }

/-- A transaction whose virtual size comes out 0 (weight 0, size 0). -/
def c9zero : LtcTx :=
  { fee := 7, weight := 0, size := some 0, vin := [⟨false⟩],
    vout_count := 1, status := { confirmed := true, block_height := 1 } }

/-- An unconfirmed transaction. -/
def c10un : LtcTx :=
  { fee := 1, weight := 4, size := some 1, vin := [⟨false⟩],
    vout_count := 1, status := { confirmed := false, block_height := 7 } }

/-- A confirmed litecoin transaction of the user sitting in block 5. -/
def c2usertx : LtcTx :=
  { fee := 20, weight := 800, size := some 210, vin := [⟨false⟩],
    vout_count := 2, status := { confirmed := true, block_height := 5 } }

/-- A plain native transfer visible in a scanned block. -/
def c1tx : EvmTx :=
  { hash := "0xh1", fromAddr := "0xaa", toAddr := some "0xbb", value := 1,
    input := some "0x", gasPrice := 5, gas := 21000 }

/-- A sampling environment with one configured native token and a cap of
one example per asset; every scanned block contains `c1tx` and every
receipt is available. -/
def c1env : NetEnv :=
  { networkTokens := [("eth", ZERO_ADDRESS)], maxNetworkExamples := 1,
    myAddress := "0xme", blockTxs := fun _ => [c1tx],
    receipt := fun _ => some ⟨21000⟩ }

/-- A native transfer sent by the configured user address itself. -/
def c3tx : EvmTx :=
  { hash := "0xh2", fromAddr := "0xme", toAddr := some "0xbb", value := 1,
    input := some "0x", gasPrice := 5, gas := 21000 }

/-- A sampling environment whose single scanned transaction was sent by
the configured user address. -/
def c3env : NetEnv :=
  { networkTokens := [("eth", ZERO_ADDRESS)], maxNetworkExamples := 20,
    myAddress := "0xme", blockTxs := fun _ => [c3tx],
    receipt := fun _ => some ⟨21000⟩ }

/-- A transaction with a recipient, positive value, and non-empty call
data. -/
def c4tx : EvmTx :=
  { hash := "0xh3", fromAddr := "0xaa", toAddr := some "0xbb", value := 1,
    input := some "0xdeadbeef", gasPrice := 5, gas := 21000 }

/-- Two classified account-model records sharing the asset `usdt`. -/
def c8a : TransferData :=
  { token := "usdt", hash := "0xa", block := 3, gas_used := 50000,
    gas_price := 2, gas_limit := 60000, fee := 100000 }

/-- Second record of the `usdt` pair. -/
def c8b : TransferData :=
  { token := "usdt", hash := "0xb", block := 4, gas_used := 40000,
    gas_price := 4, gas_limit := 70000, fee := 160000 }

/-! ## Helper lemmas -/

/-- The CPFP heuristic holds exactly when the transaction has more than 5
inputs and its fee per byte (as computed by `calculate_fee_per_byte`) is
strictly below 2; the two functions compute the same fee per byte. -/
lemma is_cpfp_iff (tx : LtcTx) :
    Ltc.is_cpfp_transaction tx = true ↔
      5 < tx.vin.length ∧ (Ltc.calculate_fee_per_byte tx).1 < 2 := by
  unfold Ltc.is_cpfp_transaction Ltc.calculate_fee_per_byte
  by_cases h : tx.vin.length > 5
  · simp [h]
  · simp [h]

/-- A CPFP candidate is dropped by the network classifier. -/
lemma classify_none_of_cpfp (tx : LtcTx)
    (h : Ltc.is_cpfp_transaction tx = true) :
    Ltc.classify_network_tx tx = none := by
  unfold Ltc.classify_network_tx
  split
  · rfl
  · simp [h]

/-! ## Claim theorems for the UTXO path -/

/-- Claim C6: a UTXO network transaction with more than 5 inputs and fee
per byte below 2 is excluded; one with fee per byte 0, or above MAX_FEE,
is excluded; and one that is not a coinbase transaction, not a CPFP
candidate, and whose fee per byte lies in `(0, MAX_FEE]` is retained. -/
theorem claim_C6 : ∀ tx : LtcTx,
    ((5 < tx.vin.length ∧ (Ltc.calculate_fee_per_byte tx).1 < 2) →
       Ltc.classify_network_tx tx = none)
    ∧ ((Ltc.calculate_fee_per_byte tx).1 = 0 →
       Ltc.classify_network_tx tx = none)
    ∧ (MAX_FEE < (Ltc.calculate_fee_per_byte tx).1 →
       Ltc.classify_network_tx tx = none)
    ∧ ((tx.vin.any fun v => v.is_coinbase) = false →
       ¬(5 < tx.vin.length ∧ (Ltc.calculate_fee_per_byte tx).1 < 2) →
       0 < (Ltc.calculate_fee_per_byte tx).1 →
       (Ltc.calculate_fee_per_byte tx).1 ≤ MAX_FEE →
       (Ltc.classify_network_tx tx).isSome = true) := by
  intro tx
  refine ⟨fun h => classify_none_of_cpfp tx ((is_cpfp_iff tx).2 h), ?_, ?_, ?_⟩
  · intro h
    unfold Ltc.classify_network_tx
    split
    · rfl
    · split
      · rfl
      · simp [h]
  · intro h
    unfold Ltc.classify_network_tx
    split
    · rfl
    · split
      · rfl
      · have : ¬ ((Ltc.calculate_fee_per_byte tx).1 ≤ MAX_FEE) := not_le.2 h
        simp [this]
  · intro hcb hcpfp hpos hle
    have hc : Ltc.is_cpfp_transaction tx = false := by
      rw [← Bool.not_eq_true]
      intro hh
      exact hcpfp ((is_cpfp_iff tx).1 hh)
    unfold Ltc.classify_network_tx
    simp [hcb, hc, hpos, hle]

/-- Claim C6, witness: the transaction `c6lo` (6 inputs, fee per byte 1.5)
is excluded while `c6hi` (6 inputs, fee per byte 3) is retained. -/
theorem claim_C6_witness :
    Ltc.classify_network_tx c6lo = none ∧
    (Ltc.classify_network_tx c6hi).isSome = true := by
  constructor
  · exact (claim_C6 c6lo).1
      ⟨by norm_num [c6lo, vin6],
       by norm_num [Ltc.calculate_fee_per_byte, c6lo]⟩
  · exact (claim_C6 c6hi).2.2.2
      (by norm_num [c6hi, vin6])
      (by norm_num [Ltc.calculate_fee_per_byte, c6hi, vin6])
      (by norm_num [Ltc.calculate_fee_per_byte, c6hi])
      (by norm_num [Ltc.calculate_fee_per_byte, c6hi, MAX_FEE])

/-- Claim C7: the percentage delta is `(mine - network) / network * 100`
for a strictly positive network baseline and 0 for a zero baseline, with
the two concrete sanity values of the specification. -/
theorem claim_C7 :
    (∀ mine network : Rat, 0 < network →
       percent_diff mine network = (mine - network) / network * 100)
    ∧ (∀ x : Rat, percent_diff x 0 = 0)
    ∧ percent_diff 110 100 = 10
    ∧ percent_diff 90 100 = -10 := by
  refine ⟨fun mine network h => ?_, fun x => ?_, ?_, ?_⟩
  · simp [percent_diff, h]
  · simp [percent_diff]
  · norm_num [percent_diff]
  · norm_num [percent_diff]

/-- Claim C7, witness: the first clause applied at mine 110, network 100. -/
theorem claim_C7_witness :
    (0 : Rat) < 100 ∧ percent_diff 110 100 = (110 - 100) / 100 * 100 :=
  ⟨by norm_num, claim_C7.1 110 100 (by norm_num)⟩

/-- Claim C9: the virtual size is weight/4 when the weight is positive and
the byte size otherwise, and a non-positive virtual size yields fee per
byte exactly 0; `calculate_fee_per_byte` is total by construction. -/
theorem claim_C9 : ∀ (tx : LtcTx) (s : Rat),
    (0 < tx.weight → (Ltc.calculate_fee_per_byte tx).2 = tx.weight / 4)
    ∧ (tx.size = some s → ¬ 0 < tx.weight →
       (Ltc.calculate_fee_per_byte tx).2 = s)
    ∧ (¬ 0 < (Ltc.calculate_fee_per_byte tx).2 →
       (Ltc.calculate_fee_per_byte tx).1 = 0) := by
  intro tx s
  refine ⟨fun h => ?_, fun hs hw => ?_, fun h => ?_⟩
  · simp [Ltc.calculate_fee_per_byte, h]
  · simp [Ltc.calculate_fee_per_byte, hw, hs]
  · show (if (if tx.weight > 0 then tx.weight / 4 else tx.size.getD 1) > 0 then
            tx.fee / (if tx.weight > 0 then tx.weight / 4 else tx.size.getD 1)
          else 0) = 0
    have h2 : ¬ ((if tx.weight > 0 then tx.weight / 4 else tx.size.getD 1) > 0) := h
    rw [if_neg h2]

/-- Claim C9, witness: positive weight 8 gives virtual size 2; weight 0
falls back to the byte size 5; the zero-size transaction gets fee per
byte 0. -/
theorem claim_C9_witness :
    ((0 : Rat) < c9pos.weight ∧
       (Ltc.calculate_fee_per_byte c9pos).2 = c9pos.weight / 4)
    ∧ (c9noW.size = some 5 ∧ (Ltc.calculate_fee_per_byte c9noW).2 = 5)
    ∧ (Ltc.calculate_fee_per_byte c9zero).1 = 0 :=
  ⟨⟨by norm_num [c9pos], (claim_C9 c9pos 3).1 (by norm_num [c9pos])⟩,
   ⟨by norm_num [c9noW],
    (claim_C9 c9noW 5).2.1 (by norm_num [c9noW]) (by norm_num [c9noW])⟩,
   (claim_C9 c9zero 0).2.2
     (by norm_num [Ltc.calculate_fee_per_byte, c9zero])⟩

/-- When `get_our_transactions_stats` returns a record, its transaction
count and median fee are computed over exactly the confirmed transactions
among the first `OUR_TRANSACTIONS_LIMIT` fetched ones. -/
lemma our_stats_eq_some (fetched : List LtcTx) (s : Ltc.OurStats)
    (hs : Ltc.get_our_transactions_stats fetched = some s) :
    s.total_txs = ((fetched.take OUR_TRANSACTIONS_LIMIT).filter
        (fun tx => tx.status.confirmed)).length
    ∧ s.avg_fee_per_byte = Ltc.median
        (((fetched.take OUR_TRANSACTIONS_LIMIT).filter
            (fun tx => tx.status.confirmed)).map
          (fun tx => (Ltc.calculate_fee_per_byte tx).1)) := by
  unfold Ltc.get_our_transactions_stats at hs
  simp only at hs
  split at hs
  · exact absurd hs (by simp)
  · cases hs
    exact ⟨by simp, rfl⟩

/-- With no confirmed transaction among the first `OUR_TRANSACTIONS_LIMIT`
fetched ones, `get_our_transactions_stats` returns an absent result. -/
lemma our_stats_none (fetched : List LtcTx)
    (h : (fetched.take OUR_TRANSACTIONS_LIMIT).filter
        (fun tx => tx.status.confirmed) = []) :
    Ltc.get_our_transactions_stats fetched = none := by
  unfold Ltc.get_our_transactions_stats
  simp [h]

/-- Claim C10: the mine-side UTXO statistics are computed only over
confirmed fetched transactions, and when none is confirmed the function
returns an absent result, on which the run stops before network
sampling. -/
theorem claim_C10 : ∀ fetched : List LtcTx,
    (∀ s, Ltc.get_our_transactions_stats fetched = some s →
       s.total_txs = ((fetched.take OUR_TRANSACTIONS_LIMIT).filter
           (fun tx => tx.status.confirmed)).length
       ∧ s.avg_fee_per_byte = Ltc.median
           (((fetched.take OUR_TRANSACTIONS_LIMIT).filter
               (fun tx => tx.status.confirmed)).map
             (fun tx => (Ltc.calculate_fee_per_byte tx).1)))
    ∧ ((fetched.take OUR_TRANSACTIONS_LIMIT).filter
          (fun tx => tx.status.confirmed) = [] →
       Ltc.get_our_transactions_stats fetched = none
       ∧ Ltc.run_proceeds fetched = false) := by
  intro fetched
  constructor
  · intro s hs
    exact our_stats_eq_some fetched s hs
  · intro hempty
    have hnone := our_stats_none fetched hempty
    exact ⟨hnone, by simp [Ltc.run_proceeds, hnone]⟩

/-- Claim C10, witness: with a single unconfirmed fetched transaction the
stats are absent and the run does not proceed. -/
theorem claim_C10_witness :
    Ltc.get_our_transactions_stats [c10un] = none
    ∧ Ltc.run_proceeds [c10un] = false :=
  (claim_C10 [c10un]).2 (by decide)

/-- Claim C5, counterexample: a confirmed transaction with 6 inputs and
fee per byte 1.5 is retained by the mine-side statistics (it is counted)
but dropped by the network-side classifier, so the exclusion rules are
not applied identically to both samples. -/
theorem claim_C5_counterexample :
    (Ltc.get_our_transactions_stats [c5tx]).map (fun s => s.total_txs) = some 1
    ∧ c5tx.status.confirmed = true
    ∧ 5 < c5tx.vin.length
    ∧ (Ltc.calculate_fee_per_byte c5tx).1 < 2
    ∧ Ltc.classify_network_tx c5tx = none := by
  refine ⟨?_, by norm_num [c5tx], by norm_num [c5tx, vin6],
          by norm_num [Ltc.calculate_fee_per_byte, c5tx], ?_⟩
  · norm_num [Ltc.get_our_transactions_stats, OUR_TRANSACTIONS_LIMIT, c5tx]
  · exact classify_none_of_cpfp c5tx ((is_cpfp_iff c5tx).2
      ⟨by norm_num [c5tx, vin6],
       by norm_num [Ltc.calculate_fee_per_byte, c5tx]⟩)

/-- Claim C5, amended: the coinbase, CPFP and fee-range exclusions are
applied only to the network sample; the mine sample filters only on
confirmation status, so a confirmed transaction that the CPFP rule would
drop still contributes to the mine-side statistics. -/
theorem claim_C5_amended : ∀ (fetched : List LtcTx) (s : Ltc.OurStats)
    (tx : LtcTx),
    (Ltc.get_our_transactions_stats fetched = some s →
       s.total_txs = ((fetched.take OUR_TRANSACTIONS_LIMIT).filter
         (fun tx => tx.status.confirmed)).length)
    ∧ (tx.status.confirmed = true → 5 < tx.vin.length →
       (Ltc.calculate_fee_per_byte tx).1 < 2 →
       (Ltc.get_our_transactions_stats [tx]).isSome = true
       ∧ Ltc.classify_network_tx tx = none) := by
  intro fetched s tx
  constructor
  · intro hs
    exact (our_stats_eq_some fetched s hs).1
  · intro hconf hvin hfee
    constructor
    · simp [Ltc.get_our_transactions_stats, OUR_TRANSACTIONS_LIMIT, hconf]
    · exact classify_none_of_cpfp tx ((is_cpfp_iff tx).2 ⟨hvin, hfee⟩)

/-- Claim C5, witness: the second clause applied to the concrete confirmed
CPFP transaction `c5tx`. -/
theorem claim_C5_witness :
    (Ltc.get_our_transactions_stats [c5tx]).isSome = true
    ∧ Ltc.classify_network_tx c5tx = none :=
  (claim_C5_amended [c5tx] ⟨0, 0, 0, 0, 0, 0⟩ c5tx).2
    (by norm_num [c5tx])
    (by norm_num [c5tx, vin6])
    (by norm_num [Ltc.calculate_fee_per_byte, c5tx])

/-- Membership in the block-set insertion. -/
lemma mem_insertBlock (l : List Nat) (b b' : Nat) :
    b' ∈ insertBlock l b ↔ b' ∈ l ∨ b' = b := by
  unfold insertBlock
  split
  · constructor
    · exact fun h => Or.inl h
    · rintro (h | h)
      · exact h
      · subst h; assumption
  · simp

/-- Insertion preserves distinctness. -/
lemma nodup_insertBlock (l : List Nat) (b : Nat) (h : l.Nodup) :
    (insertBlock l b).Nodup := by
  unfold insertBlock
  split
  · exact h
  · rename_i hb
    simp [List.nodup_append, h, hb]

/-- The per-token inner loop of `collect_my_transactions`: a block number
is in the accumulated set after the loop exactly when it was already there
or some fetched transaction of this token has it as a positive block
number. -/
lemma collect_my_inner_mem (p : String) :
    ∀ (txs : List OwnTx) (acc : List TransferData × List Nat) (b : Nat),
      b ∈ (txs.foldl
        (fun acc tx =>
          if 0 < tx.blockNumber then
            (acc.1 ++ [{ token := p, hash := tx.hash,
                         block := tx.blockNumber, gas_used := tx.gasUsed,
                         gas_price := tx.gasPrice, gas_limit := tx.gas,
                         fee := tx.gasUsed * tx.gasPrice }],
             insertBlock acc.2 tx.blockNumber)
          else acc) acc).2 ↔
      b ∈ acc.2 ∨ ∃ tx ∈ txs, tx.blockNumber = b ∧ 0 < b := by
  intro txs
  induction txs with
  | nil => simp
  | cons tx rest ih =>
      intro acc b
      simp only [List.foldl_cons]
      by_cases h : 0 < tx.blockNumber
      · rw [if_pos h, ih, mem_insertBlock]
        constructor
        · rintro ((hl | he) | hr)
          · exact Or.inl hl
          · exact Or.inr ⟨tx, by simp, he.symm, he ▸ h⟩
          · obtain ⟨t, ht, hb, hpos⟩ := hr
            exact Or.inr ⟨t, by simp [ht], hb, hpos⟩
        · rintro (hl | ⟨t, ht, hb, hpos⟩)
          · exact Or.inl (Or.inl hl)
          · rcases List.mem_cons.1 ht with h1 | h2
            · exact Or.inl (Or.inr (by rw [h1] at hb; exact hb.symm))
            · exact Or.inr ⟨t, h2, hb, hpos⟩
      · rw [if_neg h, ih]
        constructor
        · rintro (hl | ⟨t, ht, hb, hpos⟩)
          · exact Or.inl hl
          · exact Or.inr ⟨t, by simp [ht], hb, hpos⟩
        · rintro (hl | ⟨t, ht, hb, hpos⟩)
          · exact Or.inl hl
          · rcases List.mem_cons.1 ht with h1 | h2
            · subst h1
              rw [hb] at h
              exact absurd hpos h
            · exact Or.inr ⟨t, h2, hb, hpos⟩

/-- The per-token inner loop preserves distinctness of the block set. -/
lemma collect_my_inner_nodup (p : String) :
    ∀ (txs : List OwnTx) (acc : List TransferData × List Nat),
      acc.2.Nodup →
      (txs.foldl
        (fun acc tx =>
          if 0 < tx.blockNumber then
            (acc.1 ++ [{ token := p, hash := tx.hash,
                         block := tx.blockNumber, gas_used := tx.gasUsed,
                         gas_price := tx.gasPrice, gas_limit := tx.gas,
                         fee := tx.gasUsed * tx.gasPrice }],
             insertBlock acc.2 tx.blockNumber)
          else acc) acc).2.Nodup := by
  intro txs
  induction txs with
  | nil => exact fun acc h => h
  | cons tx rest ih =>
      intro acc hacc
      simp only [List.foldl_cons]
      by_cases h : 0 < tx.blockNumber
      · rw [if_pos h]
        exact ih _ (nodup_insertBlock _ _ hacc)
      · rw [if_neg h]
        exact ih _ hacc

/-- The blocks accumulated by `collect_my_transactions`: exactly the
distinct positive block numbers occurring in the fetched per-token
transaction lists. -/
lemma collect_my_mem :
    ∀ (per_token : List (String × List OwnTx))
      (acc : List TransferData × List Nat) (b : Nat),
      b ∈ (per_token.foldl
        (fun acc p =>
          p.2.foldl
            (fun acc tx =>
              if 0 < tx.blockNumber then
                (acc.1 ++ [{ token := p.1, hash := tx.hash,
                             block := tx.blockNumber, gas_used := tx.gasUsed,
                             gas_price := tx.gasPrice, gas_limit := tx.gas,
                             fee := tx.gasUsed * tx.gasPrice }],
                 insertBlock acc.2 tx.blockNumber)
              else acc)
            acc) acc).2 ↔
      b ∈ acc.2 ∨ ∃ p ∈ per_token, ∃ tx ∈ p.2, tx.blockNumber = b ∧ 0 < b := by
  intro per_token
  induction per_token with
  | nil => simp
  | cons p rest ih =>
      intro acc b
      simp only [List.foldl_cons]
      rw [ih, collect_my_inner_mem]
      constructor
      · rintro ((hl | ⟨t, ht, hb, hpos⟩) | ⟨q, hq, t, ht, hb, hpos⟩)
        · exact Or.inl hl
        · exact Or.inr ⟨p, by simp, t, ht, hb, hpos⟩
        · exact Or.inr ⟨q, by simp [hq], t, ht, hb, hpos⟩
      · rintro (hl | ⟨q, hq, t, ht, hb, hpos⟩)
        · exact Or.inl (Or.inl hl)
        · rcases List.mem_cons.1 hq with h1 | h2
          · subst h1
            exact Or.inl (Or.inr ⟨t, ht, hb, hpos⟩)
          · exact Or.inr ⟨q, h2, t, ht, hb, hpos⟩

/-- The outer loop of `collect_my_transactions` preserves distinctness. -/
lemma collect_my_nodup :
    ∀ (per_token : List (String × List OwnTx))
      (acc : List TransferData × List Nat),
      acc.2.Nodup →
      (per_token.foldl
        (fun acc p =>
          p.2.foldl
            (fun acc tx =>
              if 0 < tx.blockNumber then
                (acc.1 ++ [{ token := p.1, hash := tx.hash,
                             block := tx.blockNumber, gas_used := tx.gasUsed,
                             gas_price := tx.gasPrice, gas_limit := tx.gas,
                             fee := tx.gasUsed * tx.gasPrice }],
                 insertBlock acc.2 tx.blockNumber)
              else acc)
            acc) acc).2.Nodup := by
  intro per_token
  induction per_token with
  | nil => exact fun acc h => h
  | cons p rest ih =>
      intro acc hacc
      simp only [List.foldl_cons]
      exact ih _ (collect_my_inner_nodup p.1 p.2 acc hacc)

/-- Claim C2, counterexample: with the chain tip at height 100, the UTXO
network sampler scans blocks 81 through 100, which is not the distinct
block set `[5]` of a user transaction confirmed in block 5 — the UTXO
path ignores the user's blocks entirely. -/
theorem claim_C2_counterexample :
    c2usertx.status.block_height = 5
    ∧ Ltc.scanned_blocks (some 100) [] = List.range' 81 20
    ∧ c2usertx.status.block_height ∉ Ltc.scanned_blocks (some 100) []
    ∧ Ltc.scanned_blocks (some 100) [] ≠ [c2usertx.status.block_height] := by
  refine ⟨rfl, by decide, by decide, by decide⟩

/-- Claim C2, amended: on the account-model chains the sampler scans
exactly the distinct positive block numbers of the user's fetched
transactions, but the UTXO-model (Litecoin) sampler scans the most recent
`NETWORK_BLOCKS_LIMIT` blocks of the chain (the range ending at the tip),
independent of the user's transactions. -/
theorem claim_C2_amended :
    (∀ (per_token : List (String × List OwnTx)) (b : Nat),
       b ∈ account_scanned_blocks per_token ↔
         ∃ p ∈ per_token, ∃ tx ∈ p.2, tx.blockNumber = b ∧ 0 < b)
    ∧ (∀ per_token : List (String × List OwnTx),
       (account_scanned_blocks per_token).Nodup)
    ∧ (∀ (current_height b : Nat) (fallback_heights : List Nat),
       b ∈ Ltc.scanned_blocks (some current_height) fallback_heights ↔
         max 1 (current_height + 1 - NETWORK_BLOCKS_LIMIT) ≤ b
         ∧ b ≤ current_height) := by
  refine ⟨fun per_token b => ?_, fun per_token => ?_, fun h b fb => ?_⟩
  · unfold account_scanned_blocks collect_my_transactions
    rw [collect_my_mem]
    simp
  · unfold account_scanned_blocks collect_my_transactions
    exact collect_my_nodup per_token ([], []) (by simp)
  · unfold Ltc.scanned_blocks Ltc.get_recent_blocks
    simp only
    rw [List.mem_range'_1]
    have h1 : max 1 (h + 1 - NETWORK_BLOCKS_LIMIT) ≤ h + 1 := by
      simp [NETWORK_BLOCKS_LIMIT]
      omega
    omega

/-- Claim C4, counterexample: on Ethereum a native-asset transaction with
positive value and non-empty call data is still classified as relevant,
because the ethereum classifier places no condition on the payload. -/
theorem claim_C4_counterexample :
    Eth.is_token_transfer c4tx ZERO_ADDRESS = true
    ∧ 0 < c4tx.value
    ∧ c4tx.input = some "0xdeadbeef"
    ∧ c4tx.input ≠ some "0x" ∧ c4tx.input ≠ some "" ∧ c4tx.input ≠ none :=
  ⟨by decide, by decide, rfl, by decide, by decide, by decide⟩

/-- Claim C4, amended: the stated characterization (recipient present,
positive parsed value, and payload exactly `0x` or empty) holds only for
the Arbitrum classifier; the Ethereum classifier checks just the
recipient and the value and ignores the payload. -/
theorem claim_C4_amended : ∀ tx : EvmTx,
    (Arb.is_token_transfer tx ZERO_ADDRESS = true ↔
       truthyStr tx.toAddr = true ∧ 0 < tx.value
       ∧ (tx.input = some "0x" ∨ tx.input = some ""))
    ∧ (Eth.is_token_transfer tx ZERO_ADDRESS = true ↔
       truthyStr tx.toAddr = true ∧ 0 < tx.value) := by
  intro tx
  constructor
  · unfold Arb.is_token_transfer
    simp [and_assoc]
  · unfold Eth.is_token_transfer
    simp

/-- The sum of the constant map 1 is the length. -/
lemma sum_map_one {α : Type} (l : List α) :
    (l.map fun _ => (1 : Nat)).sum = l.length := by
  induction l with
  | nil => rfl
  | cons x xs ih =>
      simp [ih]
      omega

/-- Counting a token equals summing 1 over its records. -/
lemma sumByToken_one (txs : List TransferData) (t : String) :
    sumByToken txs t (fun _ => 1) = countToken t txs := by
  simp [sumByToken, countToken, sum_map_one]

/-- Generic component lemma for the accumulation loop of `analyze_data`:
any projection that `statsAdd` bumps by `f` ends up as its initial value
plus the sum of `f` over the records of the token. -/
lemma accumulate_field (g : AccStats → Nat) (f : TransferData → Nat)
    (hg : ∀ s tx, g (statsAdd s tx) = g s + f tx) :
    ∀ (txs : List TransferData) (m : String → AccStats) (t : String),
      g ((txs.foldl
        (fun m tx => fun u => if u == tx.token then statsAdd (m u) tx else m u)
        m) t)
        = g (m t) + sumByToken txs t f := by
  intro txs
  induction txs with
  | nil =>
      intro m t
      simp [sumByToken]
  | cons tx rest ih =>
      intro m t
      simp only [List.foldl_cons]
      rw [ih]
      by_cases h : t = tx.token
      · have hf : (tx.token == t) = true := by simp [h]
        have ht : (t == tx.token) = true := by simp [h]
        simp only [sumByToken, List.filter_cons, hf, ht, if_pos, List.map_cons,
          List.sum_cons, ite_true]
        rw [hg]
        omega
      · have hf : (tx.token == t) = false := by
          simp [beq_eq_false_iff_ne]
          exact fun hh => h hh.symm
        have ht : (t == tx.token) = false := by
          simp [beq_eq_false_iff_ne, h]
        simp only [sumByToken, List.filter_cons, hf, ht, Bool.false_eq_true,
          if_false]

/-- The accumulated entry of a token: count and totals over exactly the
records with that token. -/
lemma accumulate_stats_spec (txs : List TransferData) (t : String) :
    accumulate_stats txs t =
      { count := countToken t txs,
        total_gas_used := sumByToken txs t (fun r => r.gas_used),
        total_gas_price := sumByToken txs t (fun r => r.gas_price),
        total_gas_limit := sumByToken txs t (fun r => r.gas_limit),
        total_fee := sumByToken txs t (fun r => r.fee) } := by
  have h1 := accumulate_field (fun s => s.count) (fun _ => 1)
    (fun s tx => rfl) txs (fun _ => statsInit) t
  have h2 := accumulate_field (fun s => s.total_gas_used)
    (fun r => r.gas_used) (fun s tx => rfl) txs (fun _ => statsInit) t
  have h3 := accumulate_field (fun s => s.total_gas_price)
    (fun r => r.gas_price) (fun s tx => rfl) txs (fun _ => statsInit) t
  have h4 := accumulate_field (fun s => s.total_gas_limit)
    (fun r => r.gas_limit) (fun s tx => rfl) txs (fun _ => statsInit) t
  have h5 := accumulate_field (fun s => s.total_fee)
    (fun r => r.fee) (fun s tx => rfl) txs (fun _ => statsInit) t
  rw [sumByToken_one] at h1
  ext
  · simpa [accumulate_stats, statsInit] using h1
  · simpa [accumulate_stats, statsInit] using h2
  · simpa [accumulate_stats, statsInit] using h3
  · simpa [accumulate_stats, statsInit] using h4
  · simpa [accumulate_stats, statsInit] using h5

/-- Claim C8: for an asset occurring in the classified list,
`analyze_data` yields a present entry whose count is the number of its
records and whose average fields are exactly total/count; an asset with no
record is absent from the mapping. -/
theorem claim_C8 : ∀ (txs : List TransferData) (t : String),
    ((∃ tx ∈ txs, tx.token = t) →
       ∃ s, analyze_data_side txs t = some s
         ∧ s.count = countToken t txs
         ∧ s.avg_fee =
             (sumByToken txs t (fun r => r.fee) : Rat) / (countToken t txs : Rat)
         ∧ s.avg_gas_used =
             (sumByToken txs t (fun r => r.gas_used) : Rat) / (countToken t txs : Rat)
         ∧ s.avg_gas_price =
             (sumByToken txs t (fun r => r.gas_price) : Rat) / (countToken t txs : Rat)
         ∧ s.avg_gas_limit =
             (sumByToken txs t (fun r => r.gas_limit) : Rat) / (countToken t txs : Rat))
    ∧ ((¬ ∃ tx ∈ txs, tx.token = t) → analyze_data_side txs t = none) := by
  intro txs t
  have hspec := accumulate_stats_spec txs t
  constructor
  · rintro ⟨tx, htx, htok⟩
    have hmem : tx ∈ txs.filter (fun r => r.token == t) :=
      List.mem_filter.2 ⟨htx, by simp [htok]⟩
    have hpos : 0 < countToken t txs :=
      List.length_pos.2 (List.ne_nil_of_mem hmem)
    unfold analyze_data_side
    rw [hspec]
    simp only
    rw [if_pos hpos]
    exact ⟨_, rfl, rfl, rfl, rfl, rfl, rfl⟩
  · intro hne
    have hzero : countToken t txs = 0 := by
      rw [countToken, List.length_eq_zero, List.filter_eq_nil_iff]
      intro a ha
      simp only [beq_iff_eq]
      exact fun hh => hne ⟨a, ha, hh⟩
    unfold analyze_data_side
    rw [hspec]
    simp only
    rw [if_neg (by omega)]

/-- Claim C8, witness: the theorem applied to the two concrete `usdt`
records, whose mean fee is (100000+160000)/2. -/
theorem claim_C8_witness :
    ∃ s, analyze_data_side [c8a, c8b] "usdt" = some s
      ∧ s.count = countToken "usdt" [c8a, c8b]
      ∧ s.avg_fee = (sumByToken [c8a, c8b] "usdt" (fun r => r.fee) : Rat) /
          (countToken "usdt" [c8a, c8b] : Rat)
      ∧ s.avg_gas_used = (sumByToken [c8a, c8b] "usdt" (fun r => r.gas_used) : Rat) /
          (countToken "usdt" [c8a, c8b] : Rat)
      ∧ s.avg_gas_price = (sumByToken [c8a, c8b] "usdt" (fun r => r.gas_price) : Rat) /
          (countToken "usdt" [c8a, c8b] : Rat)
      ∧ s.avg_gas_limit = (sumByToken [c8a, c8b] "usdt" (fun r => r.gas_limit) : Rat) /
          (countToken "usdt" [c8a, c8b] : Rat) :=
  (claim_C8 [c8a, c8b] "usdt").1 ⟨c8a, by simp, rfl⟩

/-- Appending one record changes a token count by 1 exactly when the
record carries that token. -/
lemma countToken_append_single (t : String) (l : List TransferData)
    (r : TransferData) :
    countToken t (l ++ [r])
      = countToken t l + (if r.token == t then 1 else 0) := by
  simp only [countToken, List.filter_append, List.length_append,
    List.filter_cons, List.filter_nil]
  split <;> simp

/-- Folding steps that each keep the token count in lockstep with the
counter keeps them in lockstep over the whole list. -/
lemma foldl_count_delta {α : Type} (t : String)
    (f : SampleState → α → SampleState)
    (H : ∀ st x, countToken t (f st x).2 + st.1 t
        = countToken t st.2 + (f st x).1 t) :
    ∀ (l : List α) (st : SampleState),
      countToken t (l.foldl f st).2 + st.1 t
        = countToken t st.2 + (l.foldl f st).1 t := by
  intro l
  induction l with
  | nil => intro st; rfl
  | cons x xs ih =>
      intro st
      simp only [List.foldl_cons]
      have h1 := H st x
      have h2 := ih (f st x)
      omega

/-- Folding steps that each respect the counter cap keeps the counter
under the cap. -/
lemma foldl_counter_le {α : Type} (t : String) (mx : Nat)
    (f : SampleState → α → SampleState)
    (H : ∀ st x, st.1 t ≤ mx → (f st x).1 t ≤ mx) :
    ∀ (l : List α) (st : SampleState),
      st.1 t ≤ mx → (l.foldl f st).1 t ≤ mx := by
  intro l
  induction l with
  | nil => exact fun st h => h
  | cons x xs ih => exact fun st h => ih (f st x) (H st x h)

/-- The ethereum token-loop body appends one record of a token exactly
when it bumps that token's counter. -/
lemma eth_token_step_delta (env : NetEnv) (toks : List String) (block : Nat)
    (tx : EvmTx) (t : String) (st : SampleState) (entry : String × String) :
    countToken t (Eth.token_step env toks block tx st entry).2 + st.1 t
      = countToken t st.2 + (Eth.token_step env toks block tx st entry).1 t := by
  unfold Eth.token_step
  split
  · split
    · split
      · split
        · simp only [countToken_append_single]
          by_cases ht : t = entry.1
          · subst ht
            simp only [beq_self_eq_true, if_pos]
            omega
          · have h1 : (entry.1 == t) = false := by
              simp only [beq_eq_false_iff_ne, ne_eq]
              exact fun hh => ht hh.symm
            have h2 : (t == entry.1) = false := by
              simp only [beq_eq_false_iff_ne, ne_eq]
              exact ht
            simp only [h1, h2, Bool.false_eq_true, if_false]
            omega
        · rfl
      · rfl
    · rfl
  · rfl

/-- The ethereum token-loop body never drives a counter past the cap. -/
lemma eth_token_step_le (env : NetEnv) (toks : List String) (block : Nat)
    (tx : EvmTx) (t : String) (st : SampleState) (entry : String × String)
    (h : st.1 t ≤ env.maxNetworkExamples) :
    (Eth.token_step env toks block tx st entry).1 t
      ≤ env.maxNetworkExamples := by
  unfold Eth.token_step
  split
  · split
    · rename_i hmem hlt
      split
      · split
        · by_cases ht : t = entry.1
          · subst ht
            simp only [beq_self_eq_true, if_pos]
            omega
          · have h2 : (t == entry.1) = false := by
              simp only [beq_eq_false_iff_ne, ne_eq]
              exact ht
            simp only [h2, Bool.false_eq_true, if_false]
            exact h
        · exact h
      · exact h
    · exact h
  · exact h

/-- The arbitrum token-loop body appends one record of a token exactly
when it bumps that token's counter. -/
lemma arb_token_step_delta (env : NetEnv) (toks : List String) (block : Nat)
    (tx : EvmTx) (t : String) (st : SampleState) (entry : String × String) :
    countToken t (Arb.token_step env toks block tx st entry).2 + st.1 t
      = countToken t st.2 + (Arb.token_step env toks block tx st entry).1 t := by
  unfold Arb.token_step
  split
  · split
    · split
      · split
        · simp only [countToken_append_single]
          by_cases ht : t = entry.1
          · subst ht
            simp only [beq_self_eq_true, if_pos]
            omega
          · have h1 : (entry.1 == t) = false := by
              simp only [beq_eq_false_iff_ne, ne_eq]
              exact fun hh => ht hh.symm
            have h2 : (t == entry.1) = false := by
              simp only [beq_eq_false_iff_ne, ne_eq]
              exact ht
            simp only [h1, h2, Bool.false_eq_true, if_false]
            omega
        · rfl
      · rfl
    · rfl
  · rfl

/-- The arbitrum token-loop body never drives a counter past the cap. -/
lemma arb_token_step_le (env : NetEnv) (toks : List String) (block : Nat)
    (tx : EvmTx) (t : String) (st : SampleState) (entry : String × String)
    (h : st.1 t ≤ env.maxNetworkExamples) :
    (Arb.token_step env toks block tx st entry).1 t
      ≤ env.maxNetworkExamples := by
  unfold Arb.token_step
  split
  · split
    · rename_i hmem hlt
      split
      · split
        · by_cases ht : t = entry.1
          · subst ht
            simp only [beq_self_eq_true, if_pos]
            omega
          · have h2 : (t == entry.1) = false := by
              simp only [beq_eq_false_iff_ne, ne_eq]
              exact ht
            simp only [h2, Bool.false_eq_true, if_false]
            exact h
        · exact h
      · exact h
    · exact h
  · exact h

/-- Per-transaction lockstep property, ethereum. -/
lemma eth_tx_step_delta (env : NetEnv) (toks : List String) (block : Nat)
    (t : String) (st : SampleState) (tx : EvmTx) :
    countToken t (Eth.tx_step env toks block st tx).2 + st.1 t
      = countToken t st.2 + (Eth.tx_step env toks block st tx).1 t := by
  unfold Eth.tx_step
  exact foldl_count_delta t (Eth.token_step env toks block tx)
    (fun st e => eth_token_step_delta env toks block tx t st e)
    env.networkTokens st

/-- Per-transaction cap preservation, ethereum. -/
lemma eth_tx_step_le (env : NetEnv) (toks : List String) (block : Nat)
    (t : String) (st : SampleState) (tx : EvmTx)
    (h : st.1 t ≤ env.maxNetworkExamples) :
    (Eth.tx_step env toks block st tx).1 t ≤ env.maxNetworkExamples := by
  unfold Eth.tx_step
  exact foldl_counter_le t env.maxNetworkExamples
    (Eth.token_step env toks block tx)
    (fun st e hh => eth_token_step_le env toks block tx t st e hh)
    env.networkTokens st h

/-- Per-transaction lockstep property, arbitrum. -/
lemma arb_tx_step_delta (env : NetEnv) (toks : List String) (block : Nat)
    (t : String) (st : SampleState) (tx : EvmTx) :
    countToken t (Arb.tx_step env toks block st tx).2 + st.1 t
      = countToken t st.2 + (Arb.tx_step env toks block st tx).1 t := by
  unfold Arb.tx_step
  split
  · rfl
  · exact foldl_count_delta t (Arb.token_step env toks block tx)
      (fun st e => arb_token_step_delta env toks block tx t st e)
      env.networkTokens st

/-- Per-transaction cap preservation, arbitrum. -/
lemma arb_tx_step_le (env : NetEnv) (toks : List String) (block : Nat)
    (t : String) (st : SampleState) (tx : EvmTx)
    (h : st.1 t ≤ env.maxNetworkExamples) :
    (Arb.tx_step env toks block st tx).1 t ≤ env.maxNetworkExamples := by
  unfold Arb.tx_step
  split
  · exact h
  · exact foldl_counter_le t env.maxNetworkExamples
      (Arb.token_step env toks block tx)
      (fun st e hh => arb_token_step_le env toks block tx t st e hh)
      env.networkTokens st h

/-- One ethereum block contributes at most `MAX_NETWORK_EXAMPLES` records
per token (the counter starts at 0 at the start of the block). -/
lemma eth_process_block_bound (env : NetEnv) (toks : List String)
    (t : String) (acc : List TransferData) (block : Nat) :
    countToken t (Eth.process_block env toks acc block)
      ≤ countToken t acc + env.maxNetworkExamples := by
  unfold Eth.process_block
  dsimp only
  have hd := foldl_count_delta t (Eth.tx_step env toks block)
    (fun st tx => eth_tx_step_delta env toks block t st tx)
    (env.blockTxs block) ((fun _ => 0), acc)
  have hl := foldl_counter_le t env.maxNetworkExamples
    (Eth.tx_step env toks block)
    (fun st tx h => eth_tx_step_le env toks block t st tx h)
    (env.blockTxs block) ((fun _ => 0), acc) (Nat.zero_le _)
  simp only at hd hl
  omega

/-- One arbitrum block contributes at most `MAX_NETWORK_EXAMPLES` records
per token. -/
lemma arb_process_block_bound (env : NetEnv) (toks : List String)
    (t : String) (acc : List TransferData) (block : Nat) :
    countToken t (Arb.process_block env toks acc block)
      ≤ countToken t acc + env.maxNetworkExamples := by
  unfold Arb.process_block
  dsimp only
  have hd := foldl_count_delta t (Arb.tx_step env toks block)
    (fun st tx => arb_tx_step_delta env toks block t st tx)
    (env.blockTxs block) ((fun _ => 0), acc)
  have hl := foldl_counter_le t env.maxNetworkExamples
    (Arb.tx_step env toks block)
    (fun st tx h => arb_tx_step_le env toks block t st tx h)
    (env.blockTxs block) ((fun _ => 0), acc) (Nat.zero_le _)
  simp only at hd hl
  omega

/-- Fold of per-block processing, ethereum: the per-token record count
grows by at most the cap for each scanned block. -/
lemma eth_collect_bound (env : NetEnv) (toks : List String) (t : String) :
    ∀ (blocks : List Nat) (acc : List TransferData),
      countToken t (blocks.foldl (Eth.process_block env toks) acc)
        ≤ countToken t acc + env.maxNetworkExamples * blocks.length := by
  intro blocks
  induction blocks with
  | nil => intro acc; simp
  | cons b rest ih =>
      intro acc
      simp only [List.foldl_cons, List.length_cons]
      have h1 := ih (Eth.process_block env toks acc b)
      have h2 := eth_process_block_bound env toks t acc b
      have h3 : env.maxNetworkExamples * (rest.length + 1)
          = env.maxNetworkExamples * rest.length + env.maxNetworkExamples := by
        ring
      omega

/-- Fold of per-block processing, arbitrum. -/
lemma arb_collect_bound (env : NetEnv) (toks : List String) (t : String) :
    ∀ (blocks : List Nat) (acc : List TransferData),
      countToken t (blocks.foldl (Arb.process_block env toks) acc)
        ≤ countToken t acc + env.maxNetworkExamples * blocks.length := by
  intro blocks
  induction blocks with
  | nil => intro acc; simp
  | cons b rest ih =>
      intro acc
      simp only [List.foldl_cons, List.length_cons]
      have h1 := ih (Arb.process_block env toks acc b)
      have h2 := arb_process_block_bound env toks t acc b
      have h3 : env.maxNetworkExamples * (rest.length + 1)
          = env.maxNetworkExamples * rest.length + env.maxNetworkExamples := by
        ring
      omega

/-- Claim C1, counterexample: with a cap of 1 example per asset and two
scanned blocks each containing a matching transfer, the ethereum sampler
returns 2 records for the asset, exceeding the cap for the whole pass —
the counter is re-initialized at each block. -/
theorem claim_C1_counterexample :
    c1env.maxNetworkExamples = 1
    ∧ countToken "eth" (Eth.collect_network_transfers c1env [1, 2] ["eth"]) = 2 :=
  ⟨rfl, by decide⟩

/-- Claim C1, amended: the per-asset counter is re-initialized at the
start of each scanned block, so the cap bounds each asset's records per
block; over a whole pass the number of records per asset is at most
`max_network_examples` times the number of scanned blocks, on both
account-model chains. -/
theorem claim_C1_amended : ∀ (env : NetEnv) (blocks : List Nat)
    (toks : List String) (t : String),
    countToken t (Eth.collect_network_transfers env blocks toks)
      ≤ env.maxNetworkExamples * blocks.length
    ∧ countToken t (Arb.collect_network_transfers env blocks toks)
      ≤ env.maxNetworkExamples * blocks.length := by
  intro env blocks toks t
  have h0 : countToken t ([] : List TransferData) = 0 := rfl
  constructor
  · have h := eth_collect_bound env toks t blocks []
    unfold Eth.collect_network_transfers
    omega
  · have h := arb_collect_bound env toks t blocks []
    unfold Arb.collect_network_transfers
    omega

/-- Elements on which a fold step is the identity can be filtered out of
the fold without changing the result. -/
lemma foldl_skip_filter {α β : Type} (f : β → α → β) (p : α → Bool)
    (hf : ∀ st x, p x = true → f st x = st) :
    ∀ (l : List α) (st : β),
      l.foldl f st = (l.filter (fun x => !(p x))).foldl f st := by
  intro l
  induction l with
  | nil => intro st; rfl
  | cons x xs ih =>
      intro st
      by_cases h : p x = true
      · simp only [List.foldl_cons, List.filter_cons, h, Bool.not_true,
          Bool.false_eq_true, if_false]
        rw [hf st x h, ih]
      · have hx : p x = false := by
          cases hp : p x
          · rfl
          · exact absurd hp h
        simp only [List.foldl_cons, List.filter_cons, hx, Bool.not_false,
          if_true]
        exact ih (f st x)

/-- The arbitrum per-transaction step skips a transaction whose sender is
the configured user address, compared case-insensitively. -/
lemma arb_tx_step_skip (env : NetEnv) (toks : List String) (block : Nat)
    (st : SampleState) (tx : EvmTx)
    (h : (tx.fromAddr.toLower == env.myAddress.toLower) = true) :
    Arb.tx_step env toks block st tx = st := by
  unfold Arb.tx_step
  rw [if_pos h]

/-- Claim C3, counterexample: the ethereum sampler has no sender check;
a transaction sent by the configured user address itself (here equal even
character for character) is collected into the network sample. -/
theorem claim_C3_counterexample :
    c3tx.fromAddr = c3env.myAddress
    ∧ (Eth.collect_network_transfers c3env [1] ["eth"]).map (fun r => r.hash)
        = [c3tx.hash] :=
  ⟨rfl, by decide⟩

/-- Claim C3, amended: the skip of transactions sent by the configured
user address holds on Arbitrum — removing all such transactions from
every scanned block leaves the arbitrum sample unchanged — but the
Ethereum sampler performs no such check. -/
theorem claim_C3_amended : ∀ (env : NetEnv) (blocks : List Nat)
    (toks : List String),
    Arb.collect_network_transfers env blocks toks
      = Arb.collect_network_transfers
          { env with blockTxs := (fun bn => (env.blockTxs bn).filter
              (fun tx => !(tx.fromAddr.toLower == env.myAddress.toLower))) }
          blocks toks := by
  intro env blocks toks
  unfold Arb.collect_network_transfers
  have hpb : Arb.process_block
      { env with blockTxs := (fun bn => (env.blockTxs bn).filter
          (fun tx => !(tx.fromAddr.toLower == env.myAddress.toLower))) } toks
      = Arb.process_block env toks := by
    funext acc bn
    show (((env.blockTxs bn).filter
        (fun tx => !(tx.fromAddr.toLower == env.myAddress.toLower))).foldl
          (Arb.tx_step env toks bn) ((fun _ => 0), acc)).2
      = ((env.blockTxs bn).foldl
          (Arb.tx_step env toks bn) ((fun _ => 0), acc)).2
    rw [← foldl_skip_filter (Arb.tx_step env toks bn)
      (fun tx => tx.fromAddr.toLower == env.myAddress.toLower)
      (fun st tx h => arb_tx_step_skip env toks bn st tx h)]
  rw [hpb]
